import Mathlib

/-!
# Verification development for the FIPL scoring pipeline

This file is a shallow embedding, in Lean 4, of the core of the
fipl-scoring-pipeline repository: the per-player statistics record
(`scorecard_scraper.create_default_player_stats`), the fantasy-point
calculators (`score_calculator.calculate_batting_points`,
`calculate_bowling_points`, `calculate_fielding_points`,
`calculate_potm_points`, and the per-player body of
`calculate_scores_and_update_sheet`), the statistics-assembly steps of
`scrape_scorecard` (differential computation, batting/bowling row
application, run-out credit splitting), and the identity resolver
`find_matching_player` of the Cloud Function revision
(`src/scorecard_scraper.py` in the package; the repository also keeps a
legacy top-level revision of the scraper, noted where the two differ).

Python `float` values are modelled as exact rationals (`ℚ`); Python's
`f"{x:.1f}"` / `f"{x:.2f}"` formatting is modelled as decimal rounding on
`ℚ` (`round1` / `round2`).  The scoring-rule tables and player-role maps
are loaded from JSON configuration at run time and are not part of the
sources, so every calculator is parametrised by a record of rule values:
a field such as `BattingRules.duck` stands for
`scoring_rules['run_scoring']['duck'][player_role]` for the fixed role of
the player under consideration, and the `Option` wrapper of
`calculate_batting_points` models the early `(0, ...)` return for a
player whose role lookup yields `"Unknown"`.
-/

/-- The per-player statistics record.  Fields and defaults are those of
`create_default_player_stats` in `scorecard_scraper.py` (both revisions
create the identical dictionary).  Numeric fields are `ℚ`; the source
stores `did_not_bat` and `potm` as the strings `"Yes"`/`"No"` and
`is_sub` as a boolean. -/
structure PlayerStats where
  runs_scored : ℚ := 0
  balls_faced : ℚ := 0
  fours : ℚ := 0
  sixes : ℚ := 0
  strike_rate : ℚ := 0
  sr_differential : ℚ := 0
  overs : ℚ := 0
  economy : ℚ := 0
  economy_differential : ℚ := 0
  wickets : ℚ := 0
  dots : ℚ := 0
  wides : ℚ := 0
  no_balls : ℚ := 0
  catches : ℚ := 0
  run_outs : ℚ := 0
  did_not_bat : String := "Yes"
  stumping : ℚ := 0
  maiden : ℚ := 0
  potm : String := "No"
  is_sub : Bool := false
  runs_points : ℚ := 0
  strike_rate_points : ℚ := 0
  boundaries_points : ℚ := 0
  maiden_points : ℚ := 0
  potm_points : ℚ := 0
  wickets_points : ℚ := 0
  dots_points : ℚ := 0
  extras_points : ℚ := 0
  economy_points : ℚ := 0
  batting_points : ℚ := 0
  bowling_points : ℚ := 0
  fielding_points : ℚ := 0
  total_points : ℚ := 0


/-- The record produced by `create_default_player_stats`: all numeric
fields `0`, `did_not_bat = "Yes"`, `potm = "No"`, `is_sub = False`. -/
def create_default_player_stats : PlayerStats := {}

/-- Batting rule values for one fixed player role: the results of the
`scoring_rules['run_scoring' | 'strike_rate' |
'strike_rate_differential'][...][player_role]` lookups performed by
`calculate_batting_points`. -/
structure BattingRules where
  run : ℚ
  four : ℚ
  six : ℚ
  duck : ℚ
  milestone_30 : ℚ
  milestone_50 : ℚ
  milestone_75 : ℚ
  milestone_100 : ℚ
  milestone_150 : ℚ
  above_150 : ℚ
  above_170 : ℚ
  above_200 : ℚ
  above_250 : ℚ
  above_300 : ℚ
  below_70 : ℚ
  below_90 : ℚ
  srd_lower_70_plus : ℚ
  srd_lower_60 : ℚ
  srd_lower_50 : ℚ
  srd_lower_40 : ℚ
  srd_lower_30 : ℚ
  srd_lower_20 : ℚ
  srd_higher_200_plus : ℚ
  srd_higher_100 : ℚ
  srd_higher_75 : ℚ
  srd_higher_50 : ℚ
  srd_higher_30 : ℚ
  srd_higher_20 : ℚ


/-- Duck penalty term of `calculate_batting_points`
(`if stats['runs_scored'] == 0 and stats['did_not_bat'] == "No"`). -/
def duck_term (r : BattingRules) (s : PlayerStats) : ℚ :=
  if s.runs_scored = 0 ∧ s.did_not_bat = "No" then r.duck else 0

/-- Run-milestone term of `calculate_batting_points`: the
`if/elif` chain over `>= 150 / 100 / 75 / 50 / 30`. -/
def milestone_term (r : BattingRules) (s : PlayerStats) : ℚ :=
  if 150 ≤ s.runs_scored then r.milestone_150
  else if 100 ≤ s.runs_scored then r.milestone_100
  else if 75 ≤ s.runs_scored then r.milestone_75
  else if 50 ≤ s.runs_scored then r.milestone_50
  else if 30 ≤ s.runs_scored then r.milestone_30
  else 0

/-- Strike-rate bonus term (minimum 20 runs) of
`calculate_batting_points`. -/
def sr_bonus_term (r : BattingRules) (s : PlayerStats) : ℚ :=
  if 20 ≤ s.runs_scored then
    (if 300 ≤ s.strike_rate then r.above_300
     else if 250 ≤ s.strike_rate then r.above_250
     else if 200 ≤ s.strike_rate then r.above_200
     else if 170 ≤ s.strike_rate then r.above_170
     else if 150 ≤ s.strike_rate then r.above_150
     else 0)
  else 0

/-- Strike-rate penalty term (minimum 15 balls) of
`calculate_batting_points`. -/
def sr_penalty_term (r : BattingRules) (s : PlayerStats) : ℚ :=
  if 15 ≤ s.balls_faced then
    (if s.strike_rate < 70 then r.below_70
     else if s.strike_rate < 90 then r.below_90
     else 0)
  else 0

/-- Strike-rate differential term of `calculate_batting_points`
(lines 67–99 of the top-level revision, identical in the package
revision).  `srd` is `stats['sr_differential']` and `balls` is
`stats['balls_faced']`; the `sr_diff < 0` branch works on
`sr_diff_abs = abs(sr_diff)`. -/
def sr_diff_term (r : BattingRules) (srd balls : ℚ) : ℚ :=
  if srd < 0 then
    (if 70 ≤ |srd| ∧ 10 ≤ balls then r.srd_lower_70_plus
     else if 60 ≤ |srd| ∧ 10 ≤ balls then r.srd_lower_60
     else if 50 ≤ |srd| ∧ 10 ≤ balls then r.srd_lower_50
     else if 40 ≤ |srd| ∧ 12 ≤ balls then r.srd_lower_40
     else if 30 ≤ |srd| ∧ 15 ≤ balls then r.srd_lower_30
     else if 20 ≤ |srd| ∧ 15 ≤ balls then r.srd_lower_20
     else 0)
  else
    (if 200 ≤ srd ∧ 10 ≤ balls then r.srd_higher_200_plus
     else if 100 ≤ srd ∧ 10 ≤ balls then r.srd_higher_100
     else if 75 ≤ srd ∧ 10 ≤ balls then r.srd_higher_75
     else if 50 ≤ srd ∧ 12 ≤ balls then r.srd_higher_50
     else if 30 ≤ srd ∧ 15 ≤ balls then r.srd_higher_30
     else if 20 ≤ srd ∧ 15 ≤ balls then r.srd_higher_20
     else 0)

/-- Body of `calculate_batting_points` for a player whose role is known;
returns `(batting_points, runs_points, strike_rate_points,
boundaries_points)`.  The imperative `+=` accumulation is rendered as the
sum of the independent terms it builds up. -/
def calc_batting_core (r : BattingRules) (s : PlayerStats) : ℚ × ℚ × ℚ × ℚ :=
  let runs_points := s.runs_scored * r.run + duck_term r s + milestone_term r s
  let strike_rate_points :=
    sr_bonus_term r s + sr_penalty_term r s + sr_diff_term r s.sr_differential s.balls_faced
  let boundaries_points := s.fours * r.four + s.sixes * r.six
  (runs_points + strike_rate_points + boundaries_points,
    runs_points, strike_rate_points, boundaries_points)

/-- `calculate_batting_points`: `none` models the `"Unknown"` role early
return `(0, 0, 0, 0)`. -/
def calculate_batting_points (rr : Option BattingRules) (s : PlayerStats) :
    ℚ × ℚ × ℚ × ℚ :=
  match rr with
  | none => (0, 0, 0, 0)
  | some r => calc_batting_core r s

/-- Bowling rule values for one fixed player role, mirroring the
`scoring_rules['wickets' | 'bowling_other' | 'economy_rate' |
'economy_rate_differential'][...][player_role]` lookups of
`calculate_bowling_points`.  The `ott_*` fields are the
`'one_to_two_overs'` economy bands, the `m21_*` fields the
`'min_2.1_overs'` bands, and the `erd_*` fields the economy-rate
differential tiers. -/
structure BowlingRules where
  per_wicket : ℚ
  milestone_3 : ℚ
  milestone_4 : ℚ
  milestone_5 : ℚ
  milestone_6_plus : ℚ
  maiden_over : ℚ
  dot_ball : ℚ
  no_ball : ℚ
  wide : ℚ
  one_over_above_18 : ℚ
  ott_15 : ℚ
  ott_13 : ℚ
  ott_12 : ℚ
  ott_11 : ℚ
  ott_7 : ℚ
  ott_6 : ℚ
  ott_5 : ℚ
  ott_4 : ℚ
  ott_3 : ℚ
  ott_2 : ℚ
  ott_below_2 : ℚ
  m21_15 : ℚ
  m21_13 : ℚ
  m21_12 : ℚ
  m21_11 : ℚ
  m21_7 : ℚ
  m21_6 : ℚ
  m21_5 : ℚ
  m21_4 : ℚ
  m21_3 : ℚ
  m21_2 : ℚ
  m21_below_2 : ℚ
  erd_higher_70_plus : ℚ
  erd_higher_60 : ℚ
  erd_higher_50 : ℚ
  erd_higher_40 : ℚ
  erd_higher_30 : ℚ
  erd_higher_20 : ℚ
  erd_lower_70_plus : ℚ
  erd_lower_60 : ℚ
  erd_lower_50 : ℚ
  erd_lower_40 : ℚ
  erd_lower_30 : ℚ
  erd_lower_20 : ℚ


/-- The economy bands shared, with identical boundaries, by the
`one_to_two_overs` and `min_2.1_overs` `if/elif` chains of
`calculate_bowling_points`.  Note the chains have no branch for
`8 <= economy < 11` or for `economy >= 18` (the latter is handled by the
separate one-over rule), which `none` records. -/
inductive EcoBand
  | b15 | b13 | b12 | b11 | b7 | b6 | b5 | b4 | b3 | b2 | belowTwo
deriving DecidableEq

/-- The band selected by the shared `if 15 <= economy < 18: ... elif
economy < 2:` chain. -/
def ecoBandOf (e : ℚ) : Option EcoBand :=
  if 15 ≤ e ∧ e < 18 then some .b15
  else if 13 ≤ e ∧ e < 15 then some .b13
  else if 12 ≤ e ∧ e < 13 then some .b12
  else if 11 ≤ e ∧ e < 12 then some .b11
  else if 7 ≤ e ∧ e < 8 then some .b7
  else if 6 ≤ e ∧ e < 7 then some .b6
  else if 5 ≤ e ∧ e < 6 then some .b5
  else if 4 ≤ e ∧ e < 5 then some .b4
  else if 3 ≤ e ∧ e < 4 then some .b3
  else if 2 ≤ e ∧ e < 3 then some .b2
  else if e < 2 then some .belowTwo
  else none

/-- Rule value of a band in the `one_to_two_overs` section. -/
def ottValue (r : BowlingRules) : EcoBand → ℚ
  | .b15 => r.ott_15
  | .b13 => r.ott_13
  | .b12 => r.ott_12
  | .b11 => r.ott_11
  | .b7 => r.ott_7
  | .b6 => r.ott_6
  | .b5 => r.ott_5
  | .b4 => r.ott_4
  | .b3 => r.ott_3
  | .b2 => r.ott_2
  | .belowTwo => r.ott_below_2

/-- Rule value of a band in the `min_2.1_overs` section. -/
def m21Value (r : BowlingRules) : EcoBand → ℚ
  | .b15 => r.m21_15
  | .b13 => r.m21_13
  | .b12 => r.m21_12
  | .b11 => r.m21_11
  | .b7 => r.m21_7
  | .b6 => r.m21_6
  | .b5 => r.m21_5
  | .b4 => r.m21_4
  | .b3 => r.m21_3
  | .b2 => r.m21_2
  | .belowTwo => r.m21_below_2

/-- The `overs >= 1` / `economy >= 18` rule of
`calculate_bowling_points`. -/
def eco_one_over_term (r : BowlingRules) (overs e : ℚ) : ℚ :=
  if 1 ≤ overs ∧ 18 ≤ e then r.one_over_above_18 else 0

/-- The `if overs > 1 and overs <= 2:` banded regime of
`calculate_bowling_points`. -/
def eco_one_to_two_term (r : BowlingRules) (overs e : ℚ) : ℚ :=
  if 1 < overs ∧ overs ≤ 2 then
    (match ecoBandOf e with
     | some b => ottValue r b
     | none => 0)
  else 0

/-- The banded part of the `if overs > 2.1:` regime of
`calculate_bowling_points` (its differential part is
`eco_diff_term`). -/
def eco_min21_term (r : BowlingRules) (overs e : ℚ) : ℚ :=
  if 2.1 < overs then
    (match ecoBandOf e with
     | some b => m21Value r b
     | none => 0)
  else 0

/-- Tier chain on `stats['economy_differential']`, as nested inside the
`if overs > 2.1:` block of `calculate_bowling_points`. -/
def eco_diff_inner (r : BowlingRules) (d : ℚ) : ℚ :=
  if 0 < d then
    (if 70 ≤ d then r.erd_higher_70_plus
     else if 60 ≤ d then r.erd_higher_60
     else if 50 ≤ d then r.erd_higher_50
     else if 40 ≤ d then r.erd_higher_40
     else if 30 ≤ d then r.erd_higher_30
     else if 20 ≤ d then r.erd_higher_20
     else 0)
  else
    (if 70 ≤ |d| then r.erd_lower_70_plus
     else if 60 ≤ |d| then r.erd_lower_60
     else if 50 ≤ |d| then r.erd_lower_50
     else if 40 ≤ |d| then r.erd_lower_40
     else if 30 ≤ |d| then r.erd_lower_30
     else if 20 ≤ |d| then r.erd_lower_20
     else 0)

/-- Economy-rate differential term: evaluated only inside the
`if overs > 2.1:` block. -/
def eco_diff_term (r : BowlingRules) (overs d : ℚ) : ℚ :=
  if 2.1 < overs then eco_diff_inner r d else 0

/-- Wicket term of `calculate_bowling_points`: per-wicket points plus the
mutually exclusive milestone chain. -/
def wickets_term (r : BowlingRules) (s : PlayerStats) : ℚ :=
  s.wickets * r.per_wicket +
    (if 6 ≤ s.wickets then r.milestone_6_plus
     else if 5 ≤ s.wickets then r.milestone_5
     else if 4 ≤ s.wickets then r.milestone_4
     else if 3 ≤ s.wickets then r.milestone_3
     else 0)

/-- Body of `calculate_bowling_points` for a player whose role is known;
returns `(bowling_points, wickets_points, maiden_points, economy_points,
extras_points, dots_points)`. -/
def calc_bowling_core (r : BowlingRules) (s : PlayerStats) :
    ℚ × ℚ × ℚ × ℚ × ℚ × ℚ :=
  let wickets_points := wickets_term r s
  let maiden_points := s.maiden * r.maiden_over
  let dots_points := s.dots * r.dot_ball
  let extras_points := s.no_balls * r.no_ball + s.wides * r.wide
  let economy_points :=
    eco_one_over_term r s.overs s.economy +
      eco_one_to_two_term r s.overs s.economy +
      eco_min21_term r s.overs s.economy +
      eco_diff_term r s.overs s.economy_differential
  (wickets_points + maiden_points + economy_points + extras_points + dots_points,
    wickets_points, maiden_points, economy_points, extras_points, dots_points)

/-- `calculate_bowling_points`: `none` models the `"Unknown"` role early
return. -/
def calculate_bowling_points (rr : Option BowlingRules) (s : PlayerStats) :
    ℚ × ℚ × ℚ × ℚ × ℚ × ℚ :=
  match rr with
  | none => (0, 0, 0, 0, 0, 0)
  | some r => calc_bowling_core r s

/-- `calculate_fielding_points`: `(catches + stumping + run_outs)` times
the role's `catch_stumping_runout` value; `none` is the `"Unknown"` role
early return `0`. -/
def calculate_fielding_points (rv : Option ℚ) (s : PlayerStats) : ℚ :=
  match rv with
  | none => 0
  | some v => (s.catches + s.stumping + s.run_outs) * v

/-- `calculate_potm_points`: the flat `player_of_match` bonus if
`stats['potm'] == 'Yes'`. -/
def calculate_potm_points (rv : Option ℚ) (s : PlayerStats) : ℚ :=
  match rv with
  | none => 0
  | some v => if s.potm = "Yes" then v else 0

/-- All rule values for one fixed role, as used by the per-player body of
`calculate_scores_and_update_sheet`. -/
structure Rules where
  batting : BattingRules
  bowling : BowlingRules
  catch_stumping_runout : ℚ
  player_of_match : ℚ


/-- `format_points` of the top-level `calculate_scores_and_update_sheet`
converts a float that is a whole number to `int`; on exact rationals the
value is unchanged, so it is the identity on `ℚ`. -/
def format_points (q : ℚ) : ℚ := q

/-- The body of the per-player loop of
`calculate_scores_and_update_sheet` (top-level revision, lines 263–314):
computes the four calculators on the record and stores every point
category back into it.  File and sheet I/O and the iteration over teams
are orchestration and are not modelled.  A `none` rule set models a
player whose role lookup yields `"Unknown"`: all calculators then return
zeros, which are still written to the record. -/
def calculate_scores_for_player (rr : Option Rules) (s : PlayerStats) : PlayerStats :=
  let b := calculate_batting_points (rr.map (·.batting)) s
  let w := calculate_bowling_points (rr.map (·.bowling)) s
  let f := calculate_fielding_points (rr.map (·.catch_stumping_runout)) s
  let p := calculate_potm_points (rr.map (·.player_of_match)) s
  { s with
    runs_points := format_points b.2.1
    strike_rate_points := format_points b.2.2.1
    boundaries_points := format_points b.2.2.2
    maiden_points := format_points w.2.2.1
    potm_points := format_points p
    wickets_points := format_points w.2.1
    dots_points := format_points w.2.2.2.2.2
    extras_points := format_points w.2.2.2.2.1
    economy_points := format_points w.2.2.2.1
    batting_points := format_points b.1
    bowling_points := format_points w.1
    fielding_points := format_points f
    total_points := format_points (b.1 + w.1 + f + p) }

/-- A strike-rate-differential tier `(magnitude bound, minimum balls
faced, rule value)` qualifies for a record when the differential
magnitude reaches the bound (`>=` semantics) and the balls-faced gate is
met (`>=` semantics). -/
def tierQualifies (d balls : ℚ) (t : ℚ × ℚ × ℚ) : Prop :=
  t.1 ≤ d ∧ t.2.1 ≤ balls

/-- The six lower-direction strike-rate differential tiers of
`calculate_batting_points`, ordered from most extreme (index 0) to
tamest (index 5), each with the balls-faced gate the source attaches to
it. -/
def lowerTierOf (r : BattingRules) : Fin 6 → ℚ × ℚ × ℚ
  | 0 => (70, 10, r.srd_lower_70_plus)
  | 1 => (60, 10, r.srd_lower_60)
  | 2 => (50, 10, r.srd_lower_50)
  | 3 => (40, 12, r.srd_lower_40)
  | 4 => (30, 15, r.srd_lower_30)
  | 5 => (20, 15, r.srd_lower_20)

/-- The six higher-direction strike-rate differential tiers, ordered from
most extreme (index 0) to tamest (index 5). -/
def higherTierOf (r : BattingRules) : Fin 6 → ℚ × ℚ × ℚ
  | 0 => (200, 10, r.srd_higher_200_plus)
  | 1 => (100, 10, r.srd_higher_100)
  | 2 => (75, 10, r.srd_higher_75)
  | 3 => (50, 12, r.srd_higher_50)
  | 4 => (30, 15, r.srd_higher_30)
  | 5 => (20, 15, r.srd_higher_20)

/-- A concrete rule table with pairwise distinct differential-tier
values, used to instantiate counterexamples and witnesses. -/
def sampleBattingRules : BattingRules :=
  { run := 1, four := 1, six := 2, duck := -5
    milestone_30 := 10, milestone_50 := 20, milestone_75 := 30
    milestone_100 := 40, milestone_150 := 50
    above_150 := 5, above_170 := 6, above_200 := 8, above_250 := 10, above_300 := 12
    below_70 := -6, below_90 := -3
    srd_lower_70_plus := -77, srd_lower_60 := -66, srd_lower_50 := -55
    srd_lower_40 := -44, srd_lower_30 := -33, srd_lower_20 := -22
    srd_higher_200_plus := 99, srd_higher_100 := 88, srd_higher_75 := 70
    srd_higher_50 := 44, srd_higher_30 := 33, srd_higher_20 := 22 }

/-- Lower-direction tiers indexed by `ℕ` (0 = most extreme); indices
beyond 5 return a junk tier. -/
def lowerTier (r : BattingRules) : ℕ → ℚ × ℚ × ℚ
  | 0 => (70, 10, r.srd_lower_70_plus)
  | 1 => (60, 10, r.srd_lower_60)
  | 2 => (50, 10, r.srd_lower_50)
  | 3 => (40, 12, r.srd_lower_40)
  | 4 => (30, 15, r.srd_lower_30)
  | 5 => (20, 15, r.srd_lower_20)
  | _ => (0, 0, 0)

def higherTier (r : BattingRules) : ℕ → ℚ × ℚ × ℚ
  | 0 => (200, 10, r.srd_higher_200_plus)
  | 1 => (100, 10, r.srd_higher_100)
  | 2 => (75, 10, r.srd_higher_75)
  | 3 => (50, 12, r.srd_higher_50)
  | 4 => (30, 15, r.srd_higher_30)
  | 5 => (20, 15, r.srd_higher_20)
  | _ => (0, 0, 0)

theorem sr_diff_highest_qualifying_tier (r : BattingRules) (srd balls : ℚ) :
    (srd < 0 →
      (∃ i < 6, sr_diff_term r srd balls = (lowerTier r i).2.2 ∧
        tierQualifies |srd| balls (lowerTier r i) ∧
        ∀ j < i, ¬ tierQualifies |srd| balls (lowerTier r j)) ∨
      (sr_diff_term r srd balls = 0 ∧
        ∀ i < 6, ¬ tierQualifies |srd| balls (lowerTier r i))) ∧
    (0 ≤ srd →
      (∃ i < 6, sr_diff_term r srd balls = (higherTier r i).2.2 ∧
        tierQualifies srd balls (higherTier r i) ∧
        ∀ j < i, ¬ tierQualifies srd balls (higherTier r j)) ∨
      (sr_diff_term r srd balls = 0 ∧
        ∀ i < 6, ¬ tierQualifies srd balls (higherTier r i))) ∧
    (∀ i ≤ 5, ∀ j ≤ 5, i ≤ j → (lowerTier r i).2.1 ≤ (lowerTier r j).2.1) ∧
    (∀ i ≤ 5, ∀ j ≤ 5, i ≤ j → (higherTier r i).2.1 ≤ (higherTier r j).2.1) := by
  refine ⟨?_, ?_, ?_, ?_⟩
  · intro h
    unfold sr_diff_term
    rw [if_pos h]
    split_ifs with h1 h2 h3 h4 h5 h6
    · exact Or.inl ⟨0, by omega, rfl, h1, by omega⟩
    · refine Or.inl ⟨1, by omega, rfl, h2, ?_⟩
      intro j hj
      interval_cases j
      · simp only [tierQualifies, lowerTier]; exact h1
    · refine Or.inl ⟨2, by omega, rfl, h3, ?_⟩
      intro j hj
      interval_cases j
      · simp only [tierQualifies, lowerTier]; exact h1
      · simp only [tierQualifies, lowerTier]; exact h2
    · refine Or.inl ⟨3, by omega, rfl, h4, ?_⟩
      intro j hj
      interval_cases j
      · simp only [tierQualifies, lowerTier]; exact h1
      · simp only [tierQualifies, lowerTier]; exact h2
      · simp only [tierQualifies, lowerTier]; exact h3
    · refine Or.inl ⟨4, by omega, rfl, h5, ?_⟩
      intro j hj
      interval_cases j
      · simp only [tierQualifies, lowerTier]; exact h1
      · simp only [tierQualifies, lowerTier]; exact h2
      · simp only [tierQualifies, lowerTier]; exact h3
      · simp only [tierQualifies, lowerTier]; exact h4
    · refine Or.inl ⟨5, by omega, rfl, h6, ?_⟩
      intro j hj
      interval_cases j
      · simp only [tierQualifies, lowerTier]; exact h1
      · simp only [tierQualifies, lowerTier]; exact h2
      · simp only [tierQualifies, lowerTier]; exact h3
      · simp only [tierQualifies, lowerTier]; exact h4
      · simp only [tierQualifies, lowerTier]; exact h5
    · refine Or.inr ⟨rfl, ?_⟩
      intro i hi
      interval_cases i
      · simp only [tierQualifies, lowerTier]; exact h1
      · simp only [tierQualifies, lowerTier]; exact h2
      · simp only [tierQualifies, lowerTier]; exact h3
      · simp only [tierQualifies, lowerTier]; exact h4
      · simp only [tierQualifies, lowerTier]; exact h5
      · simp only [tierQualifies, lowerTier]; exact h6
  · intro h
    unfold sr_diff_term
    rw [if_neg (not_lt.mpr h)]
    split_ifs with h1 h2 h3 h4 h5 h6
    · exact Or.inl ⟨0, by omega, rfl, h1, by omega⟩
    · refine Or.inl ⟨1, by omega, rfl, h2, ?_⟩
      intro j hj
      interval_cases j
      · simp only [tierQualifies, higherTier]; exact h1
    · refine Or.inl ⟨2, by omega, rfl, h3, ?_⟩
      intro j hj
      interval_cases j
      · simp only [tierQualifies, higherTier]; exact h1
      · simp only [tierQualifies, higherTier]; exact h2
    · refine Or.inl ⟨3, by omega, rfl, h4, ?_⟩
      intro j hj
      interval_cases j
      · simp only [tierQualifies, higherTier]; exact h1
      · simp only [tierQualifies, higherTier]; exact h2
      · simp only [tierQualifies, higherTier]; exact h3
    · refine Or.inl ⟨4, by omega, rfl, h5, ?_⟩
      intro j hj
      interval_cases j
      · simp only [tierQualifies, higherTier]; exact h1
      · simp only [tierQualifies, higherTier]; exact h2
      · simp only [tierQualifies, higherTier]; exact h3
      · simp only [tierQualifies, higherTier]; exact h4
    · refine Or.inl ⟨5, by omega, rfl, h6, ?_⟩
      intro j hj
      interval_cases j
      · simp only [tierQualifies, higherTier]; exact h1
      · simp only [tierQualifies, higherTier]; exact h2
      · simp only [tierQualifies, higherTier]; exact h3
      · simp only [tierQualifies, higherTier]; exact h4
      · simp only [tierQualifies, higherTier]; exact h5
    · refine Or.inr ⟨rfl, ?_⟩
      intro i hi
      interval_cases i
      · simp only [tierQualifies, higherTier]; exact h1
      · simp only [tierQualifies, higherTier]; exact h2
      · simp only [tierQualifies, higherTier]; exact h3
      · simp only [tierQualifies, higherTier]; exact h4
      · simp only [tierQualifies, higherTier]; exact h5
      · simp only [tierQualifies, higherTier]; exact h6
  · intro i hi j hj hij
    interval_cases i <;> interval_cases j <;>
      simp only [lowerTier] <;> norm_num
  · intro i hi j hj hij
    interval_cases i <;> interval_cases j <;>
      simp only [higherTier] <;> norm_num

/-- C1 counterexample to the claimed gating direction. -/
theorem sr_diff_balls_gate_counterexample :
    sr_diff_term sampleBattingRules (-70) 10 = -77 ∧
    sampleBattingRules.srd_lower_70_plus = -77 ∧
    sr_diff_term sampleBattingRules (-20) 14 = 0 ∧
    (lowerTier sampleBattingRules 0).2.1 = 10 ∧
    (lowerTier sampleBattingRules 5).2.1 = 15 := by
  refine ⟨by decide, rfl, by decide, rfl, rfl⟩

/-- C1 witness. -/
theorem sr_diff_highest_qualifying_tier_witness :
    (-45 : ℚ) < 0 ∧
    ((∃ i < 6, sr_diff_term sampleBattingRules (-45) 13 = (lowerTier sampleBattingRules i).2.2 ∧
        tierQualifies |(-45 : ℚ)| 13 (lowerTier sampleBattingRules i) ∧
        ∀ j < i, ¬ tierQualifies |(-45 : ℚ)| 13 (lowerTier sampleBattingRules j)) ∨
      (sr_diff_term sampleBattingRules (-45) 13 = 0 ∧
        ∀ i < 6, ¬ tierQualifies |(-45 : ℚ)| 13 (lowerTier sampleBattingRules i))) :=
  ⟨by norm_num,
    (sr_diff_highest_qualifying_tier sampleBattingRules (-45) 13).1 (by norm_num)⟩

/-- For an economy of at least 18 neither banded `if/elif` chain selects
a band (that range belongs to the separate one-over rule). -/
theorem ecoBandOf_of_18_le {e : ℚ} (hge : (18 : ℚ) ≤ e) : ecoBandOf e = none := by
  unfold ecoBandOf
  rw [if_neg (by rintro ⟨-, h⟩; linarith), if_neg (by rintro ⟨-, h⟩; linarith),
    if_neg (by rintro ⟨-, h⟩; linarith), if_neg (by rintro ⟨-, h⟩; linarith),
    if_neg (by rintro ⟨-, h⟩; linarith), if_neg (by rintro ⟨-, h⟩; linarith),
    if_neg (by rintro ⟨-, h⟩; linarith), if_neg (by rintro ⟨-, h⟩; linarith),
    if_neg (by rintro ⟨-, h⟩; linarith), if_neg (by rintro ⟨-, h⟩; linarith),
    if_neg (by intro h; linarith)]

/-- `ecoBandOf` only selects a band when the economy is below 18. -/
theorem ecoBandOf_lt_18 {e : ℚ} {b : EcoBand} (h : ecoBandOf e = some b) : e < 18 := by
  by_contra hge
  push_neg at hge
  rw [ecoBandOf_of_18_le hge] at h
  exact Option.noConfusion h

/-- A nonzero one-over economy contribution needs `overs >= 1` and
`economy >= 18`. -/
theorem eco_one_over_term_ne {r : BowlingRules} {overs e : ℚ}
    (h : eco_one_over_term r overs e ≠ 0) : 1 ≤ overs ∧ 18 ≤ e := by
  by_contra hc
  exact h (by unfold eco_one_over_term; rw [if_neg hc])

/-- A nonzero 1-to-2-overs banded contribution needs
`1 < overs <= 2` and an economy below 18. -/
theorem eco_one_to_two_term_ne {r : BowlingRules} {overs e : ℚ}
    (h : eco_one_to_two_term r overs e ≠ 0) :
    (1 < overs ∧ overs ≤ 2) ∧ e < 18 := by
  unfold eco_one_to_two_term at h
  by_cases hg : 1 < overs ∧ overs ≤ 2
  · refine ⟨hg, ?_⟩
    rw [if_pos hg] at h
    cases hb : ecoBandOf e with
    | none => rw [hb] at h; exact absurd rfl h
    | some b => exact ecoBandOf_lt_18 hb
  · rw [if_neg hg] at h
    exact absurd rfl h

/-- A nonzero 2.1-plus-overs banded contribution needs `overs > 2.1` and
an economy below 18. -/
theorem eco_min21_term_ne {r : BowlingRules} {overs e : ℚ}
    (h : eco_min21_term r overs e ≠ 0) : 2.1 < overs ∧ e < 18 := by
  unfold eco_min21_term at h
  by_cases hg : (2.1 : ℚ) < overs
  · refine ⟨hg, ?_⟩
    rw [if_pos hg] at h
    cases hb : ecoBandOf e with
    | none => rw [hb] at h; exact absurd rfl h
    | some b => exact ecoBandOf_lt_18 hb
  · rw [if_neg hg] at h
    exact absurd rfl h

/-- C3: regime exclusivity and the 2.0-2.1 overs dead zone. -/
theorem economy_regimes_exclusive_with_gap (r : BowlingRules) (overs e : ℚ) :
    (¬ (eco_one_over_term r overs e ≠ 0 ∧ eco_one_to_two_term r overs e ≠ 0)) ∧
    (¬ (eco_one_over_term r overs e ≠ 0 ∧ eco_min21_term r overs e ≠ 0)) ∧
    (¬ (eco_one_to_two_term r overs e ≠ 0 ∧ eco_min21_term r overs e ≠ 0)) ∧
    (2 < overs → overs ≤ 2.1 →
      eco_one_to_two_term r overs e = 0 ∧ eco_min21_term r overs e = 0) := by
  refine ⟨?_, ?_, ?_, ?_⟩
  · rintro ⟨h1, h2⟩
    have a1 := eco_one_over_term_ne h1
    have a2 := eco_one_to_two_term_ne h2
    linarith [a1.2, a2.2]
  · rintro ⟨h1, h2⟩
    have a1 := eco_one_over_term_ne h1
    have a2 := eco_min21_term_ne h2
    linarith [a1.2, a2.2]
  · rintro ⟨h1, h2⟩
    have a1 := eco_one_to_two_term_ne h1
    have a2 := eco_min21_term_ne h2
    have hx : overs ≤ 2 := a1.1.2
    have hy : (2.1 : ℚ) < overs := a2.1
    rw [show (2.1 : ℚ) = 21/10 by norm_num] at hy
    linarith
  · intro hlo hhi
    constructor
    · unfold eco_one_to_two_term
      rw [if_neg (by rintro ⟨-, hx⟩; linarith)]
    · unfold eco_min21_term
      rw [if_neg (by intro hx; linarith)]

/-- C3 witness. -/
theorem economy_regimes_exclusive_with_gap_witness :
    ∃ r : BowlingRules,
      (2 : ℚ) < 2.05 ∧ (2.05 : ℚ) ≤ 2.1 ∧
      eco_one_to_two_term r 2.05 12.5 = 0 ∧ eco_min21_term r 2.05 12.5 = 0 := by
  refine ⟨⟨1, 1, 1, 1, 1, 1, 1, 1, 1, 1, 1, 1, 1, 1, 1, 1, 1, 1, 1, 1, 1, 1, 1,
    1, 1, 1, 1, 1, 1, 1, 1, 1, 1, 1, 1, 1, 1, 1, 1, 1, 1, 1, 1, 1⟩, ?_, ?_, ?_, ?_⟩
  · norm_num
  · norm_num
  · exact ((economy_regimes_exclusive_with_gap _ 2.05 12.5).2.2.2 (by norm_num)
      (by norm_num)).1
  · exact ((economy_regimes_exclusive_with_gap _ 2.05 12.5).2.2.2 (by norm_num)
      (by norm_num)).2

/-- A concrete bowling rule table for witnesses. -/
def sampleBowlingRules : BowlingRules :=
  ⟨25, 10, 20, 30, 40, 12, 1, -2, -1, -6,
    -5, -4, -3, -2, 2, 3, 4, 5, 6, 7, 8,
    -10, -8, -6, -4, 4, 6, 8, 10, 12, 14, 16,
    -12, -10, -8, -6, -4, -2, 12, 10, 8, 6, 4, 2⟩

/-- C4: no economy-differential adjustment at or below 2.1 overs. -/
theorem economy_differential_needs_overs_beyond_2_1 (r : BowlingRules)
    (s : PlayerStats) (d1 d2 : ℚ) :
    s.overs ≤ 2.1 →
      eco_diff_term r s.overs s.economy_differential = 0 ∧
      calc_bowling_core r { s with economy_differential := d1 } =
        calc_bowling_core r { s with economy_differential := d2 } := by
  intro h
  have hng : ¬ (2.1 : ℚ) < s.overs := not_lt.mpr h
  refine ⟨by unfold eco_diff_term; rw [if_neg hng], ?_⟩
  unfold calc_bowling_core
  have hd : ∀ d : ℚ, eco_diff_term r s.overs d = 0 := by
    intro d
    unfold eco_diff_term
    rw [if_neg hng]
  simp only [hd, wickets_term]

/-- C4 witness: a bowler with exactly 2.0 overs. -/
theorem economy_differential_needs_overs_beyond_2_1_witness :
    ({ overs := 2, economy_differential := 95 : PlayerStats }).overs ≤ 2.1 ∧
    (eco_diff_term sampleBowlingRules
        ({ overs := 2, economy_differential := 95 : PlayerStats }).overs
        ({ overs := 2, economy_differential := 95 : PlayerStats }).economy_differential = 0 ∧
      calc_bowling_core sampleBowlingRules
          { { overs := 2, economy_differential := 95 : PlayerStats } with economy_differential := 95 } =
        calc_bowling_core sampleBowlingRules
          { { overs := 2, economy_differential := 95 : PlayerStats } with economy_differential := (-80) }) :=
  ⟨by norm_num,
    economy_differential_needs_overs_beyond_2_1 sampleBowlingRules
      { overs := 2, economy_differential := 95 } 95 (-80) (by norm_num)⟩

/-- Batting-row update of the Cloud Function revision of
`scrape_scorecard` (`src/scorecard_scraper.py`, lines 437–451): the
parsed row fields are written into the record, and `did_not_bat` is
`"Yes"` exactly when the row has 0 runs and the dismissal text is
exactly `"not out"`.  (The legacy top-level revision wrote
`did_not_bat = "No"` unconditionally here.) -/
def apply_batting_row_cf (dismissal : String) (runs balls fours sixes sr srd : ℚ)
    (s : PlayerStats) : PlayerStats :=
  { s with
    runs_scored := runs
    balls_faced := balls
    fours := fours
    sixes := sixes
    strike_rate := sr
    sr_differential := srd
    did_not_bat := if runs = 0 ∧ dismissal = "not out" then "Yes" else "No" }

/-- C6: a 0-run `"not out"` row yields `did_not_bat = "Yes"`, and the
duck penalty in `calculate_batting_points` fires exactly on records with
0 runs and `did_not_bat = "No"`. -/
theorem notout_zero_runs_escapes_duck (r : BattingRules) (dismissal : String)
    (runs balls fours sixes sr srd : ℚ) (s : PlayerStats) :
    (runs = 0 → dismissal = "not out" →
      (apply_batting_row_cf dismissal runs balls fours sixes sr srd s).did_not_bat = "Yes" ∧
      (calc_batting_core r (apply_batting_row_cf dismissal runs balls fours sixes sr srd s)).2.1 = 0) ∧
    (∀ t : PlayerStats, t.runs_scored = 0 → t.did_not_bat = "No" →
      (calc_batting_core r t).2.1 = r.duck) ∧
    (∀ t : PlayerStats, duck_term r t ≠ 0 →
      t.runs_scored = 0 ∧ t.did_not_bat = "No") := by
  refine ⟨?_, ?_, ?_⟩
  · intro h0 hno
    have hyes : (apply_batting_row_cf dismissal runs balls fours sixes sr srd s).did_not_bat
        = "Yes" := by
      show (if runs = 0 ∧ dismissal = "not out" then "Yes" else "No") = "Yes"
      rw [if_pos ⟨h0, hno⟩]
    refine ⟨hyes, ?_⟩
    show (apply_batting_row_cf dismissal runs balls fours sixes sr srd s).runs_scored * r.run +
        duck_term r _ + milestone_term r _ = 0
    have hruns : (apply_batting_row_cf dismissal runs balls fours sixes sr srd s).runs_scored
        = 0 := h0
    rw [hruns]
    have hd : duck_term r (apply_batting_row_cf dismissal runs balls fours sixes sr srd s) = 0 := by
      unfold duck_term
      rw [if_neg]
      rintro ⟨-, hcontra⟩
      rw [hyes] at hcontra
      exact absurd hcontra (by decide)
    have hm : milestone_term r (apply_batting_row_cf dismissal runs balls fours sixes sr srd s)
        = 0 := by
      unfold milestone_term
      rw [hruns, if_neg (by norm_num), if_neg (by norm_num), if_neg (by norm_num),
        if_neg (by norm_num), if_neg (by norm_num)]
    rw [hd, hm]
    ring
  · intro t h0 hno
    show t.runs_scored * r.run + duck_term r t + milestone_term r t = r.duck
    have hd : duck_term r t = r.duck := by
      unfold duck_term
      rw [if_pos ⟨h0, hno⟩]
    have hm : milestone_term r t = 0 := by
      unfold milestone_term
      rw [h0, if_neg (by norm_num), if_neg (by norm_num), if_neg (by norm_num),
        if_neg (by norm_num), if_neg (by norm_num)]
    rw [h0, hd, hm]
    ring
  · intro t ht
    by_contra hc
    exact ht (by unfold duck_term; rw [if_neg hc])

/-- C6 witness: a genuine not-out innings of 0. -/
theorem notout_zero_runs_escapes_duck_witness :
    ((apply_batting_row_cf "not out" 0 3 0 0 0 (-100) create_default_player_stats).did_not_bat
        = "Yes" ∧
      (calc_batting_core sampleBattingRules
        (apply_batting_row_cf "not out" 0 3 0 0 0 (-100) create_default_player_stats)).2.1 = 0) :=
  ((notout_zero_runs_escapes_duck sampleBattingRules "not out" 0 3 0 0 0 (-100)
    create_default_player_stats).1) rfl rfl

/-- C9: the per-player scoring pass is idempotent, because every point
calculation reads only the stat fields and never the point fields it
writes. -/
theorem scoring_pass_idempotent (rr : Option Rules) (s : PlayerStats) :
    calculate_scores_for_player rr (calculate_scores_for_player rr s) =
      calculate_scores_for_player rr s := by
  cases rr <;> rfl

/-- Python's `float(f"{x:.1f}")`, modelled as decimal rounding on `ℚ`.
(Python rounds the binary double half-to-even; on the exact rationals of
this model the choice of tie-breaking never matters for the properties
proved here.) -/
def round1 (q : ℚ) : ℚ := (round (q * 10) : ℤ) / 10

/-- Python's `float(f"{x:.2f}")` on `ℚ`. -/
def round2 (q : ℚ) : ℚ := (round (q * 100) : ℤ) / 100

theorem round1_zero : round1 0 = 0 := by
  unfold round1
  norm_num

theorem round2_zero : round2 0 = 0 := by
  unfold round2
  norm_num

theorem round2_nonpos {a : ℚ} (h : a ≤ 0) : round2 a ≤ 0 := by
  unfold round2
  have h100 : a * 100 ≤ 0 := by nlinarith
  have hle : round (a * 100) ≤ (0 : ℤ) := by
    rw [round_eq, show (0 : ℤ) = ⌊(0 : ℚ) + 1 / 2⌋ by norm_num]
    exact Int.floor_le_floor (by linarith)
  have hc : ((round (a * 100) : ℤ) : ℚ) ≤ 0 := by exact_mod_cast hle
  have : ((round (a * 100) : ℤ) : ℚ) / 100 ≤ 0 / 100 :=
    div_le_div_of_nonneg_right ?_ ?_
  · linarith [this]
  · exact hc
  · norm_num

/-- `sr_differential` computation of the top-level `scrape_scorecard`
(lines 322–325): percentage deviation from the team's average strike
rate, guarded so an average of 0 (or below) yields 0 without dividing,
rounded to 1 decimal. -/
def sr_differential_of (strike_rate avg_sr : ℚ) : ℚ :=
  round1 (if 0 < avg_sr then (strike_rate - avg_sr) / avg_sr * 100 else 0)

/-- `economy_differential` computation of the top-level
`scrape_scorecard` (lines 368–371): the stored team average is first
re-rounded to 2 decimals, then the guarded percentage deviation is
rounded to 1 decimal. -/
def economy_differential_of (economy avg_econ : ℚ) : ℚ :=
  round1
    (if 0 < round2 avg_econ then (economy - round2 avg_econ) / round2 avg_econ * 100 else 0)

/-- Raw fields of a batting-table row as parsed by the top-level
`scrape_scorecard` (lines 319–335); `strike_rate_raw` is the parsed
strike-rate cell, already mapped to 0 when the cell is `"-"`. -/
structure BatRow where
  runs : ℚ
  balls : ℚ
  fours : ℚ
  sixes : ℚ
  strike_rate_raw : ℚ

/-- Raw fields of a bowling-table row as parsed by the top-level
`scrape_scorecard` (lines 366–385). -/
structure BowlRow where
  overs : ℚ
  maiden : ℚ
  wickets : ℚ
  dots : ℚ
  wides : ℚ
  no_balls : ℚ
  economy_raw : ℚ

/-- Batting-row update of the top-level `scrape_scorecard` (lines
319–335); note this legacy revision sets `did_not_bat = "No"` for every
batting row. -/
def apply_batting_row (row : BatRow) (avg_sr : ℚ) (s : PlayerStats) : PlayerStats :=
  let strike_rate := round2 row.strike_rate_raw
  { s with
    runs_scored := row.runs
    balls_faced := row.balls
    fours := row.fours
    sixes := row.sixes
    strike_rate := strike_rate
    sr_differential := sr_differential_of strike_rate avg_sr
    did_not_bat := "No" }

/-- Bowling-row update of the top-level `scrape_scorecard` (lines
366–385). -/
def apply_bowling_row (row : BowlRow) (avg_econ : ℚ) (s : PlayerStats) : PlayerStats :=
  let economy := round2 row.economy_raw
  { s with
    overs := row.overs
    maiden := row.maiden
    wickets := row.wickets
    dots := row.dots
    wides := row.wides
    no_balls := row.no_balls
    economy := economy
    economy_differential := economy_differential_of economy avg_econ }

/-- The final formatting pass of `scrape_scorecard` (lines 446–456):
rates re-rounded to 2 decimals, differentials to 1 decimal. -/
def format_player_stats (s : PlayerStats) : PlayerStats :=
  { s with
    strike_rate := round2 s.strike_rate
    sr_differential := round1 s.sr_differential
    economy := round2 s.economy
    economy_differential := round1 s.economy_differential }

/-- Per-player slice of the `scrape_scorecard` passes: the record starts
as `create_default_player_stats`, is updated by the player's batting row
(if any) and bowling row (if any), and finally formatted.  The fielding
and player-of-the-match passes never touch the differential fields. -/
def assemble_player (bat : Option BatRow) (bowl : Option BowlRow)
    (avg_sr avg_econ : ℚ) : PlayerStats :=
  let s0 := create_default_player_stats
  let s1 := match bat with
    | none => s0
    | some row => apply_batting_row row avg_sr s0
  let s2 := match bowl with
    | none => s1
    | some row => apply_bowling_row row avg_econ s1
  format_player_stats s2

/-- C8: differential computations are division-guarded, and the economy
differential can only be nonzero for a player with a bowling row in an
innings whose team average economy is positive. -/
theorem differential_division_guard (bat : Option BatRow) (bowl : Option BowlRow)
    (avg_sr avg_econ : ℚ) :
    (avg_sr ≤ 0 → (assemble_player bat bowl avg_sr avg_econ).sr_differential = 0) ∧
    (avg_econ ≤ 0 → (assemble_player bat bowl avg_sr avg_econ).economy_differential = 0) ∧
    ((assemble_player bat bowl avg_sr avg_econ).economy_differential ≠ 0 →
      0 < avg_econ ∧ bowl ≠ none) := by
  have hsr : avg_sr ≤ 0 → (assemble_player bat bowl avg_sr avg_econ).sr_differential = 0 := by
    intro h
    have hng : ¬ 0 < avg_sr := not_lt.mpr h
    cases bat with
    | none =>
      cases bowl with
      | none =>
        show round1 (0 : ℚ) = 0
        exact round1_zero
      | some row =>
        show round1 (0 : ℚ) = 0
        exact round1_zero
    | some row =>
      cases bowl with
      | none =>
        show round1 (sr_differential_of (round2 row.strike_rate_raw) avg_sr) = 0
        unfold sr_differential_of
        rw [if_neg hng, round1_zero, round1_zero]
      | some brow =>
        show round1 (sr_differential_of (round2 row.strike_rate_raw) avg_sr) = 0
        unfold sr_differential_of
        rw [if_neg hng, round1_zero, round1_zero]
  have heco : avg_econ ≤ 0 →
      (assemble_player bat bowl avg_sr avg_econ).economy_differential = 0 := by
    intro h
    have hng : ¬ 0 < round2 avg_econ := not_lt.mpr (round2_nonpos h)
    cases bowl with
    | none =>
      cases bat with
      | none =>
        show round1 (0 : ℚ) = 0
        exact round1_zero
      | some row =>
        show round1 (0 : ℚ) = 0
        exact round1_zero
    | some brow =>
      cases bat with
      | none =>
        show round1 (economy_differential_of (round2 brow.economy_raw) avg_econ) = 0
        unfold economy_differential_of
        rw [if_neg hng, round1_zero, round1_zero]
      | some row =>
        show round1 (economy_differential_of (round2 brow.economy_raw) avg_econ) = 0
        unfold economy_differential_of
        rw [if_neg hng, round1_zero, round1_zero]
  refine ⟨hsr, heco, ?_⟩
  intro hne
  constructor
  · by_contra hc
    push_neg at hc
    exact hne (heco hc)
  · intro hnone
    apply hne
    subst hnone
    cases bat with
    | none =>
      show round1 (0 : ℚ) = 0
      exact round1_zero
    | some row =>
      show round1 (0 : ℚ) = 0
      exact round1_zero

/-- C8 witness: a bowler row in an innings with zero recorded average
economy. -/
theorem differential_division_guard_witness :
    ((0 : ℚ) ≤ 0 ∧
      (assemble_player none (some ⟨2, 0, 1, 4, 0, 1, 7.5⟩) 0 0).sr_differential = 0) ∧
    ((0 : ℚ) ≤ 0 ∧
      (assemble_player none (some ⟨2, 0, 1, 4, 0, 1, 7.5⟩) 0 0).economy_differential = 0) :=
  ⟨⟨le_refl 0, (differential_division_guard none (some ⟨2, 0, 1, 4, 0, 1, 7.5⟩) 0 0).1 (le_refl 0)⟩,
    ⟨le_refl 0, (differential_division_guard none (some ⟨2, 0, 1, 4, 0, 1, 7.5⟩) 0 0).2.1 (le_refl 0)⟩⟩

/-- `points_per_fielder` of the dismissal-credit pass
(`1.0 / len(fielders) if fielders else 0`; top-level `scrape_scorecard`
line 418, Cloud Function revision line 547). `n` is the number of
fielder names parsed from the parenthesized assist list. -/
def points_per_fielder (n : ℕ) : ℚ := if n ≠ 0 then 1 / n else 0

/-- The `run_outs` credits assigned while processing one run-out
dismissal: the list holds, for each of the N parsed fielder names, the
resolver's matched player name (`none` on resolution failure); each
matched fielder is credited `points_per_fielder N`, and unmatched
fielders are skipped. -/
def run_out_credits (resolved : List (Option String)) : List (String × ℚ) :=
  resolved.filterMap
    (fun rOpt => rOpt.map (fun nm => (nm, points_per_fielder resolved.length)))

/-- Folding accrued `+=` credits into the `run_outs` fields of a team's
player map (viewed as a function from player name to `run_outs`). -/
def apply_run_out_credits (runOuts : String → ℚ) : List (String × ℚ) → (String → ℚ)
  | [] => runOuts
  | c :: rest =>
      apply_run_out_credits (fun x => if x = c.1 then runOuts x + c.2 else runOuts x) rest

theorem run_out_credits_each (resolved : List (Option String)) :
    ∀ c ∈ run_out_credits resolved, c.2 = points_per_fielder resolved.length := by
  intro c hc
  unfold run_out_credits at hc
  rcases List.mem_filterMap.mp hc with ⟨o, _, hmap⟩
  cases o with
  | none => exact absurd hmap (by simp)
  | some nm =>
    simp only [Option.map_some'] at hmap
    cases hmap
    rfl

theorem sum_snd_const {α : Type} (p : ℚ) (l : List (α × ℚ))
    (h : ∀ c ∈ l, c.2 = p) : (l.map Prod.snd).sum = l.length * p := by
  induction l with
  | nil => simp
  | cons c rest ih =>
    simp only [List.map_cons, List.sum_cons, List.length_cons]
    rw [h c (List.mem_cons_self c rest), ih (fun x hx => h x (List.mem_cons_of_mem c hx))]
    push_cast
    ring

theorem filterMap_pair_length_of_all_some (p : ℚ) (l : List (Option String))
    (h : ∀ o ∈ l, o.isSome) :
    (l.filterMap (fun rOpt => rOpt.map (fun nm => (nm, p)))).length = l.length := by
  induction l with
  | nil => simp
  | cons o rest ih =>
    cases o with
    | none => exact absurd (h none (List.mem_cons_self none rest)) (by simp)
    | some nm =>
      simp only [List.filterMap_cons, Option.map_some', List.length_cons]
      rw [ih (fun x hx => h x (List.mem_cons_of_mem _ hx))]

theorem apply_run_out_credits_spec (cs : List (String × ℚ)) :
    ∀ (m : String → ℚ) (name : String),
      apply_run_out_credits m cs name =
        m name + ((cs.filter (fun c => c.1 = name)).map Prod.snd).sum := by
  induction cs with
  | nil =>
    intro m name
    simp [apply_run_out_credits]
  | cons c rest ih =>
    intro m name
    simp only [apply_run_out_credits]
    rw [ih]
    by_cases h : c.1 = name
    · rw [List.filter_cons_of_pos (by simpa using h), if_pos h.symm]
      simp only [List.map_cons, List.sum_cons]
      ring
    · rw [List.filter_cons_of_neg (by simpa using h), if_neg (fun hx => h hx.symm)]

/-- C7: run-out assist credit is split exactly `1/N` per resolved
fielder, sums to exactly 1 when every named fielder resolves, and an
empty assist list assigns no credit (and the guarded
`points_per_fielder` performs no division by zero). -/
theorem run_out_credit_split (resolved : List (Option String)) (m : String → ℚ) :
    (∀ c ∈ run_out_credits resolved, c.2 = points_per_fielder resolved.length) ∧
    (resolved.length ≠ 0 →
      points_per_fielder resolved.length = 1 / (resolved.length : ℚ)) ∧
    (resolved ≠ [] → (∀ o ∈ resolved, o.isSome) →
      ((run_out_credits resolved).map Prod.snd).sum = 1) ∧
    (resolved = [] → run_out_credits resolved = [] ∧
      apply_run_out_credits m (run_out_credits resolved) = m) ∧
    (∀ name : String,
      apply_run_out_credits m (run_out_credits resolved) name =
        m name +
          (((run_out_credits resolved).filter (fun c => c.1 = name)).map Prod.snd).sum) := by
  refine ⟨run_out_credits_each resolved, ?_, ?_, ?_, ?_⟩
  · intro hn
    unfold points_per_fielder
    rw [if_pos hn]
  · intro hne hall
    rw [sum_snd_const (points_per_fielder resolved.length) _ (run_out_credits_each resolved)]
    unfold run_out_credits
    rw [filterMap_pair_length_of_all_some _ _ hall]
    have hn : resolved.length ≠ 0 := fun hc => hne (List.length_eq_zero.mp hc)
    unfold points_per_fielder
    rw [if_pos hn]
    have : ((resolved.length : ℚ)) ≠ 0 := by exact_mod_cast hn
    field_simp
  · intro he
    subst he
    exact ⟨rfl, rfl⟩
  · intro name
    exact apply_run_out_credits_spec _ m name

/-- C7 witness: a two-fielder assist, both resolved, and the empty
list. -/
theorem run_out_credit_split_witness :
    (([some "A", some "B"] : List (Option String)) ≠ [] ∧
      (∀ o ∈ ([some "A", some "B"] : List (Option String)), o.isSome) ∧
      ((run_out_credits [some "A", some "B"]).map Prod.snd).sum = 1) ∧
    (run_out_credits ([] : List (Option String)) = [] ∧
      apply_run_out_credits (fun _ => 0) (run_out_credits ([] : List (Option String))) =
        (fun _ => (0 : ℚ))) :=
  ⟨⟨by simp, by simp,
      (run_out_credit_split [some "A", some "B"] (fun _ => 0)).2.2.1 (by simp) (by simp)⟩,
    (run_out_credit_split ([] : List (Option String)) (fun _ => 0)).2.2.2.1 rfl⟩

/-- A roster entry from `config/players.json`: canonical name and role.
(Team filtering happens before matching; `find_matching_player` below
receives the already-filtered name list plus the full roster for role
lookups, exactly as the source separates `team_players` from
`all_players`.) -/
structure RosterEntry where
  name : String
  role : String

/-- Python `str.lower()` (ASCII case folding suffices for roster
names). -/
def pyLower (s : String) : String := String.mk (s.data.map Char.toLower)

/-- Helper for `pySplit`: accumulates the current token (reversed). -/
def pySplitAux : List Char → List Char → List String
  | [], acc => if acc.isEmpty then [] else [String.mk acc.reverse]
  | c :: cs, acc =>
    if c.isWhitespace then
      (if acc.isEmpty then pySplitAux cs [] else String.mk acc.reverse :: pySplitAux cs [])
    else pySplitAux cs (c :: acc)

/-- Python `str.split()` with no argument: split on whitespace runs,
never producing empty tokens. -/
def pySplit (s : String) : List String := pySplitAux s.data []

/-- Python `s[0]` rendered as a 1-character string (`""` stays `""`; the
source would raise there, which cannot happen for the nonempty tokens it
indexes). -/
def strTake1 (s : String) : String := String.mk (s.data.take 1)

/-- An ASCII single-quote as a string. -/
def squote : String := String.mk [Char.ofNat 39]

def commaJoin : List String → String
  | [] => ""
  | [s] => s
  | s :: rest => s ++ ", " ++ commaJoin rest

/-- Python `repr` of a list of strings, as interpolated into the
resolver's failure messages by `f"... {last_name_matches}"`. -/
def pyRepr (names : List String) : String :=
  "[" ++ commaJoin (names.map (fun n => squote ++ n ++ squote)) ++ "]"

/-- The `next((pl['role'] for pl in all_players if pl['name'] == p),
None)` role lookup of `find_matching_player`. -/
def roleOf (allPlayers : List RosterEntry) (p : String) : Option String :=
  (allPlayers.find? (fun e => e.name == p)).map (·.role)

/-- The `last_name_matches` list built by the matching loop of
`find_matching_player` (Cloud Function revision, lines 113–131):
team players whose lowercased last token equals the fragment's
lowercased last token. -/
def last_name_matches (nameRaw : String) (teamPlayers : List String) : List String :=
  let lastName := ((pySplit (pyLower nameRaw)).getLast?).getD ""
  teamPlayers.filter (fun p => (((pySplit (pyLower p)).getLast?).getD "") == lastName)

/-- The `first_name_matches` list built by the same loop: team players
whose lowercased first token equals the fragment's first token, where
the fragment's first token is only set when the fragment has more than
one token (`first_name = name_parts[0] if len(name_parts) > 1 else
''`). -/
def first_name_matches (nameRaw : String) (teamPlayers : List String) : List String :=
  let nameParts := pySplit (pyLower nameRaw)
  let firstName := if nameParts.length > 1 then nameParts.headD "" else ""
  teamPlayers.filter (fun p => ((pySplit (pyLower p)).headD "") == firstName)

/-- `find_matching_player` of the Cloud Function revision
(`src/scorecard_scraper.py`, lines 86–181), from the point where the
roster has been filtered to the fielding team's players.  Returns
`(matched name, is_new_substitute, failure reason)`.  The source checks
for an exact lowercased match inside the same loop that builds the two
match lists and returns the first such hit, which is `List.find?` here;
the loop's list building is rendered by the two filters above.  Note the
source computes `first_name_matches` but never reads it again: after the
last-name logic it falls through to the `"No match found"` failure. -/
def find_matching_player (nameRaw : String) (teamPlayers existingPlayers : List String)
    (allPlayers : List RosterEntry) (isWicketkeeper : Bool) :
    Option String × Bool × Option String :=
  let name := pyLower nameRaw
  let nameParts := pySplit name
  let firstName := if nameParts.length > 1 then nameParts.headD "" else ""
  let firstLetter := if firstName ≠ "" then strTake1 firstName else ""
  let hasMultipleParts := 1 < nameParts.length
  match teamPlayers.find? (fun p => pyLower p == name) with
  | some p => (some p, false, none)
  | none =>
    let lnm := last_name_matches nameRaw teamPlayers
    let _fnm := first_name_matches nameRaw teamPlayers
    if lnm.length = 1 then (lnm.head?, false, none)
    else if 1 < lnm.length then
      let flm := lnm.filter (fun p => strTake1 (pyLower p) == firstLetter)
      if hasMultipleParts ∧ flm.length = 1 then (flm.head?, false, none)
      else
        let mie := lnm.filter (fun p => existingPlayers.contains p)
        if existingPlayers ≠ [] ∧ mie.length = 1 then (mie.head?, false, none)
        else
          let failureResult : Option String × Bool × Option String :=
            (none, false, some ("Multiple unresolved last name matches: " ++ pyRepr lnm))
          if isWicketkeeper then
            let keeperMatches := lnm.filter (fun p => roleOf allPlayers p == some "Keeper")
            if keeperMatches.length = 1 then (keeperMatches.head?, false, none)
            else failureResult
          else
            let nonKeeperMatches :=
              lnm.filter (fun p => !(roleOf allPlayers p == some "Keeper"))
            if nonKeeperMatches.length = 1 then (nonKeeperMatches.head?, false, none)
            else failureResult
    else (none, false, some ("No match found for: " ++ name))

/-- C2: the fragment "Rohit S" has no last-name match against the roster
["Rohit Sharma", "Virat Kohli"] and exactly one first-name match, yet
the resolver returns the "No match found" failure instead of the match:
the collected `first_name_matches` list is never consulted. -/
theorem first_name_fallback_never_used :
    find_matching_player "Rohit S" ["Rohit Sharma", "Virat Kohli"] []
        [⟨"Rohit Sharma", "Batter"⟩, ⟨"Virat Kohli", "Batter"⟩] false =
      (none, false, some "No match found for: rohit s") ∧
    first_name_matches "Rohit S" ["Rohit Sharma", "Virat Kohli"] = ["Rohit Sharma"] ∧
    last_name_matches "Rohit S" ["Rohit Sharma", "Virat Kohli"] = [] := by
  refine ⟨?_, ?_, ?_⟩ <;> rfl

/-- Modelled from the spec's words (§4.2, step 4): for a fragment whose
last token matches more than one roster name, disambiguate in the fixed
order (a) first letter of the first name (applicable only when the
fragment has a first name), (b) restriction to players already observed
in the current match, (c) the wicket-keeper hint (keeper marker keeps
only role = Keeper candidates, its absence keeps only non-Keeper
candidates), stopping at the first step that leaves exactly one
candidate; otherwise fail with "Multiple unresolved last name matches"
listing the candidates. -/
def spec_disambiguation_cascade (nameRaw : String)
    (teamPlayers existingPlayers : List String) (allPlayers : List RosterEntry)
    (isWicketkeeper : Bool) : Option String × Bool × Option String :=
  let cands := last_name_matches nameRaw teamPlayers
  let fragParts := pySplit (pyLower nameRaw)
  let stepA := cands.filter (fun p =>
    decide (1 < fragParts.length) &&
      (strTake1 (pyLower p) == strTake1 (fragParts.headD "")))
  if stepA.length = 1 then (stepA.head?, false, none)
  else
    let stepB := cands.filter (fun p => existingPlayers.contains p)
    if stepB.length = 1 then (stepB.head?, false, none)
    else
      let stepC :=
        if isWicketkeeper then
          cands.filter (fun p => roleOf allPlayers p == some "Keeper")
        else
          cands.filter (fun p => !(roleOf allPlayers p == some "Keeper"))
      if stepC.length = 1 then (stepC.head?, false, none)
      else (none, false, some ("Multiple unresolved last name matches: " ++ pyRepr cands))

/-- The guard on `first_letter` in the source is redundant:
`s[0:1]` of the empty string is the empty string. -/
theorem strTake1_guard (s : String) : (if s ≠ "" then strTake1 s else "") = strTake1 s := by
  by_cases h : s = ""
  · subst h
    rfl
  · rw [if_pos h]

/-- C5: with more than one last-name match (and no exact match), the
resolver is exactly the spec's fixed disambiguation cascade: (a) first
letter, (b) already-observed players, (c) keeper hint, stopping at the
first step that leaves exactly one candidate, otherwise the
"Multiple unresolved last name matches" failure with no name returned
(so the caller assigns no fielding credit). -/
theorem multiple_last_name_disambiguation (nameRaw : String)
    (teamPlayers existingPlayers : List String) (allPlayers : List RosterEntry)
    (isWicketkeeper : Bool)
    (hex : teamPlayers.find? (fun p => pyLower p == pyLower nameRaw) = none)
    (hmany : 1 < (last_name_matches nameRaw teamPlayers).length) :
    find_matching_player nameRaw teamPlayers existingPlayers allPlayers isWicketkeeper =
      spec_disambiguation_cascade nameRaw teamPlayers existingPlayers allPlayers
        isWicketkeeper := by
  have hm1 : ¬ (last_name_matches nameRaw teamPlayers).length = 1 := by omega
  have h01 : ¬ (0 : ℕ) = 1 := by omega
  unfold find_matching_player spec_disambiguation_cascade
  simp only [hex, if_neg hm1, if_pos hmany, strTake1_guard]
  by_cases hm : 1 < (pySplit (pyLower nameRaw)).length
  · simp only [if_pos hm, decide_eq_true hm, Bool.true_and, eq_true hm, true_and]
    by_cases he : existingPlayers = []
    · subst he
      simp only [ne_eq, not_true_eq_false, false_and, if_false]
      have hnil : (List.filter (fun p => List.contains [] p)
          (last_name_matches nameRaw teamPlayers)) = [] := by
        simp [List.contains]
      simp only [hnil, List.length_nil, eq_false h01, if_false]
      cases isWicketkeeper <;> rfl
    · simp only [ne_eq, eq_true he, true_and]
      cases isWicketkeeper <;> rfl
  · simp only [if_neg hm, decide_eq_false hm, Bool.false_and, eq_false hm, false_and,
      decide_False, if_false]
    have hnilA : (List.filter (fun _ => false)
        (last_name_matches nameRaw teamPlayers)) = [] := by
      simp
    simp only [hnilA, List.length_nil, eq_false h01, if_false]
    by_cases he : existingPlayers = []
    · subst he
      simp only [ne_eq, not_true_eq_false, false_and, if_false]
      have hnil : (List.filter (fun p => List.contains [] p)
          (last_name_matches nameRaw teamPlayers)) = [] := by
        simp [List.contains]
      simp only [hnil, List.length_nil, eq_false h01, if_false]
      cases isWicketkeeper <;> rfl
    · simp only [ne_eq, eq_true he, true_and]
      cases isWicketkeeper <;> rfl

/-- C5 witness: two same-surname rostered players, bare-surname
fragment, no keeper hint and no observed-player signal: every cascade
step leaves two candidates and the resolver fails without guessing. -/
theorem multiple_last_name_disambiguation_witness :
    (List.find? (fun p => pyLower p == pyLower "Sharma")
        ["Rohit Sharma", "Suyash Sharma"] = none) ∧
    (1 < (last_name_matches "Sharma" ["Rohit Sharma", "Suyash Sharma"]).length) ∧
    (find_matching_player "Sharma" ["Rohit Sharma", "Suyash Sharma"] []
        [⟨"Rohit Sharma", "Batter"⟩, ⟨"Suyash Sharma", "Bowler"⟩] false =
      spec_disambiguation_cascade "Sharma" ["Rohit Sharma", "Suyash Sharma"] []
        [⟨"Rohit Sharma", "Batter"⟩, ⟨"Suyash Sharma", "Bowler"⟩] false) ∧
    (spec_disambiguation_cascade "Sharma" ["Rohit Sharma", "Suyash Sharma"] []
        [⟨"Rohit Sharma", "Batter"⟩, ⟨"Suyash Sharma", "Bowler"⟩] false =
      (none, false,
        some ("Multiple unresolved last name matches: " ++
          pyRepr ["Rohit Sharma", "Suyash Sharma"]))) :=
  ⟨rfl, by decide,
    multiple_last_name_disambiguation "Sharma" ["Rohit Sharma", "Suyash Sharma"] []
      [⟨"Rohit Sharma", "Batter"⟩, ⟨"Suyash Sharma", "Bowler"⟩] false rfl (by decide),
    rfl⟩

/-- A value stored in the per-player statistics dictionary of the
scraper (`int`/`float` collapse to `ℚ`). -/
inductive PyVal
  | num (q : ℚ)
  | str (s : String)
  | boolean (b : Bool)
deriving DecidableEq

/-- The per-player dictionary, insertion-ordered like a Python dict. -/
abbrev StatsDict := List (String × PyVal)

/-- `d[k] = v` on a Python dict: replace the value in place if the key
exists, else append the new key. -/
def dictSet (d : StatsDict) (k : String) (v : PyVal) : StatsDict :=
  if d.any (fun kv => kv.1 == k) then
    d.map (fun kv => if kv.1 == k then (k, v) else kv)
  else d ++ [(k, v)]

def dictLookup (d : StatsDict) (k : String) : Option PyVal :=
  (d.find? (fun kv => kv.1 == k)).map (·.2)

/-- Numeric read `d[k]` (the source only does this on keys it knows hold
numbers). -/
def dictGetNum (d : StatsDict) (k : String) : ℚ :=
  match dictLookup d k with
  | some (.num q) => q
  | _ => 0

/-- Python `d.update({...})`: set each key of the literal in order. -/
def dictUpdate (d : StatsDict) : List (String × PyVal) → StatsDict
  | [] => d
  | kv :: rest => dictUpdate (dictSet d kv.1 kv.2) rest

/-- The dictionary literal returned by `create_default_player_stats`
(top-level `scorecard_scraper.py`, lines 9–44), keys in source order. -/
def default_player_stats_dict : StatsDict :=
  [("runs_scored", .num 0), ("balls_faced", .num 0), ("fours", .num 0),
   ("sixes", .num 0), ("strike_rate", .num 0), ("sr_differential", .num 0),
   ("overs", .num 0), ("economy", .num 0), ("economy_differential", .num 0),
   ("wickets", .num 0), ("dots", .num 0), ("wides", .num 0), ("no_balls", .num 0),
   ("catches", .num 0), ("run_outs", .num 0), ("did_not_bat", .str "Yes"),
   ("stumping", .num 0), ("maiden", .num 0), ("potm", .str "No"),
   ("is_sub", .boolean false), ("runs_points", .num 0),
   ("strike_rate_points", .num 0), ("boundaries_points", .num 0),
   ("maiden_points", .num 0), ("potm_points", .num 0), ("wickets_points", .num 0),
   ("dots_points", .num 0), ("extras_points", .num 0), ("economy_points", .num 0),
   ("batting_points", .num 0), ("bowling_points", .num 0),
   ("fielding_points", .num 0), ("total_points", .num 0)]

/-- The fixed key set of a player record. -/
def defaultKeys : List String := default_player_stats_dict.map Prod.fst

/-- The keys written by a batting-row `update(...)` (top-level revision,
lines 327–335). -/
def batRowUpdates (runs balls fours sixes sr srd : ℚ) : List (String × PyVal) :=
  [("runs_scored", .num runs), ("balls_faced", .num balls), ("fours", .num fours),
   ("sixes", .num sixes), ("strike_rate", .num sr), ("sr_differential", .num srd),
   ("did_not_bat", .str "No")]

/-- The keys written by a bowling-row `update(...)` (lines 374–385). -/
def bowlRowUpdates (overs maiden wickets dots wides noballs eco ecod : ℚ) :
    List (String × PyVal) :=
  [("overs", .num overs), ("maiden", .num maiden), ("wickets", .num wickets),
   ("dots", .num dots), ("wides", .num wides), ("no_balls", .num noballs),
   ("economy", .num eco), ("economy_differential", .num ecod)]

/-- A fielding credit from the dismissal pass (lines 409–419). -/
inductive CreditKind
  | catchTaken
  | stumpingMade
  | runOutAssist (ppf : ℚ)

def creditField : CreditKind → String × ℚ
  | .catchTaken => ("catches", 1)
  | .stumpingMade => ("stumping", 1)
  | .runOutAssist ppf => ("run_outs", ppf)

/-- `map[name][field] += amount`. -/
def applyCredit (d : StatsDict) (k : CreditKind) : StatsDict :=
  dictSet d (creditField k).1 (.num (dictGetNum d (creditField k).1 + (creditField k).2))

/-- The final formatting `update(...)` of lines 446–456, recomputing the
four rate/differential keys from the current record. -/
def formatUpdates (d : StatsDict) : List (String × PyVal) :=
  [("strike_rate", .num (round2 (dictGetNum d "strike_rate"))),
   ("sr_differential", .num (round1 (dictGetNum d "sr_differential"))),
   ("economy", .num (round2 (dictGetNum d "economy"))),
   ("economy_differential", .num (round1 (dictGetNum d "economy_differential")))]

/-- One team's `player_stats` map, insertion-ordered. -/
abbrev TeamMap := List (String × StatsDict)

def teamLookup (m : TeamMap) (name : String) : Option StatsDict :=
  (m.find? (fun e => e.1 == name)).map (·.2)

def teamModify (m : TeamMap) (name : String) (f : StatsDict → StatsDict) : TeamMap :=
  m.map (fun e => if e.1 == name then (e.1, f e.2) else e)

/-- `map[name] = d` (insert or overwrite). -/
def teamSet (m : TeamMap) (name : String) (d : StatsDict) : TeamMap :=
  if m.any (fun e => e.1 == name) then
    m.map (fun e => if e.1 == name then (name, d) else e)
  else m ++ [(name, d)]

/-- The `if name not in player_stats: player_stats[name] =
create_default_player_stats()` guard that precedes every update in
`scrape_scorecard`. -/
def teamInsertDefault (m : TeamMap) (name : String) : TeamMap :=
  if (teamLookup m name).isSome then m else m ++ [(name, default_player_stats_dict)]

/-- The per-player mutations `scrape_scorecard` performs on a team's
`player_stats` dict, in source order: batting rows, did-not-bat stubs,
bowling rows, dismissal credits (with the new-substitute insertion),
the player-of-the-match mark, and the final formatting pass. -/
inductive ScrapeEvent
  | batRow (name : String) (runs balls fours sixes sr srd : ℚ)
  | dnbRow (name : String)
  | bowlRow (name : String) (overs maiden wickets dots wides noballs eco ecod : ℚ)
  | fielderCredit (name : String) (isNew : Bool) (k : CreditKind)
  | potmMark (name : String)
  | formatPass (name : String)

def applyEvent (m : TeamMap) : ScrapeEvent → TeamMap
  | .batRow name runs balls fours sixes sr srd =>
      teamModify (teamInsertDefault m name) name
        (fun d => dictUpdate d (batRowUpdates runs balls fours sixes sr srd))
  | .dnbRow name => teamInsertDefault m name
  | .bowlRow name overs maiden wickets dots wides noballs eco ecod =>
      teamModify (teamInsertDefault m name) name
        (fun d => dictUpdate d (bowlRowUpdates overs maiden wickets dots wides noballs eco ecod))
  | .fielderCredit name isNew k =>
      let m1 := if isNew then
          teamSet m name (dictSet default_player_stats_dict "is_sub" (.boolean true))
        else m
      teamModify m1 name (fun d => applyCredit d k)
  | .potmMark name =>
      if (teamLookup m name).isSome then
        teamModify m name (fun d => dictSet d "potm" (.str "Yes"))
      else m
  | .formatPass name => teamModify m name (fun d => dictUpdate d (formatUpdates d))

def run_scrape_events (evs : List ScrapeEvent) : TeamMap := evs.foldl applyEvent []

theorem keys_dictSet_of_mem {d : StatsDict} {k : String} (v : PyVal)
    (h : k ∈ d.map Prod.fst) : (dictSet d k v).map Prod.fst = d.map Prod.fst := by
  unfold dictSet
  rcases List.mem_map.mp h with ⟨kv, hkv, hfst⟩
  rw [if_pos (List.any_eq_true.mpr ⟨kv, hkv, by simp [hfst]⟩)]
  rw [List.map_map]
  apply List.map_congr_left
  intro a _
  by_cases ha : a.1 = k
  · simp [ha]
  · simp [ha]

theorem keys_dictUpdate_of_subset (us : List (String × PyVal)) :
    ∀ d : StatsDict, (∀ key ∈ us.map Prod.fst, key ∈ d.map Prod.fst) →
      (dictUpdate d us).map Prod.fst = d.map Prod.fst := by
  induction us with
  | nil =>
    intro d _
    rfl
  | cons kv rest ih =>
    intro d h
    have hmem : kv.1 ∈ d.map Prod.fst := h kv.1 (by simp)
    have hset := keys_dictSet_of_mem (d := d) kv.2 hmem
    simp only [dictUpdate]
    rw [ih (dictSet d kv.1 kv.2) ?_, hset]
    intro key hk
    rw [hset]
    exact h key (by simp [hk])

/-- Every entry of the map carries exactly the default key list. -/
def entryInvariant (m : TeamMap) : Prop :=
  ∀ e ∈ m, e.2.map Prod.fst = defaultKeys

theorem teamInsertDefault_inv {m : TeamMap} (name : String)
    (h : entryInvariant m) : entryInvariant (teamInsertDefault m name) := by
  unfold teamInsertDefault
  by_cases hc : (teamLookup m name).isSome
  · rw [if_pos hc]
    exact h
  · rw [if_neg hc]
    intro e he
    rcases List.mem_append.mp he with he1 | he2
    · exact h e he1
    · rcases List.mem_singleton.mp he2 with rfl
      rfl

theorem teamModify_inv {m : TeamMap} (name : String) {f : StatsDict → StatsDict}
    (hf : ∀ d : StatsDict, d.map Prod.fst = defaultKeys → (f d).map Prod.fst = defaultKeys)
    (h : entryInvariant m) : entryInvariant (teamModify m name f) := by
  intro e he
  rcases List.mem_map.mp he with ⟨a, ha, hmapped⟩
  by_cases hc : a.1 = name
  · rw [if_pos (by simp [hc])] at hmapped
    rw [← hmapped]
    exact hf a.2 (h a ha)
  · rw [if_neg (by simp [hc])] at hmapped
    rw [← hmapped]
    exact h a ha

theorem teamSet_inv {m : TeamMap} (name : String) {d : StatsDict}
    (hd : d.map Prod.fst = defaultKeys) (h : entryInvariant m) :
    entryInvariant (teamSet m name d) := by
  unfold teamSet
  by_cases hc : m.any (fun e => e.1 == name)
  · rw [if_pos hc]
    intro e he
    rcases List.mem_map.mp he with ⟨a, ha, hmapped⟩
    by_cases hc2 : a.1 = name
    · rw [if_pos (by simp [hc2])] at hmapped
      rw [← hmapped]
      exact hd
    · rw [if_neg (by simp [hc2])] at hmapped
      rw [← hmapped]
      exact h a ha
  · rw [if_neg hc]
    intro e he
    rcases List.mem_append.mp he with he1 | he2
    · exact h e he1
    · rcases List.mem_singleton.mp he2 with rfl
      exact hd

theorem applyEvent_inv {m : TeamMap} (e : ScrapeEvent)
    (h : entryInvariant m) : entryInvariant (applyEvent m e) := by
  cases e with
  | batRow name runs balls fours sixes sr srd =>
    simp only [applyEvent]
    apply teamModify_inv name ?_ (teamInsertDefault_inv name h)
    intro d hd
    rw [← hd]
    apply keys_dictUpdate_of_subset
    intro key hk
    rw [hd]
    simp only [batRowUpdates, List.map_cons, List.map_nil] at hk
    fin_cases hk <;> decide
  | dnbRow name => exact teamInsertDefault_inv name h
  | bowlRow name overs maiden wickets dots wides noballs eco ecod =>
    simp only [applyEvent]
    apply teamModify_inv name ?_ (teamInsertDefault_inv name h)
    intro d hd
    rw [← hd]
    apply keys_dictUpdate_of_subset
    intro key hk
    rw [hd]
    simp only [bowlRowUpdates, List.map_cons, List.map_nil] at hk
    fin_cases hk <;> decide
  | fielderCredit name isNew k =>
    simp only [applyEvent]
    have hm1 : entryInvariant
        (if isNew then
          teamSet m name (dictSet default_player_stats_dict "is_sub" (.boolean true))
        else m) := by
      by_cases hn : isNew
      · rw [if_pos hn]
        apply teamSet_inv name ?_ h
        apply keys_dictSet_of_mem
        decide
      · rw [if_neg hn]
        exact h
    apply teamModify_inv name ?_ hm1
    intro d hd
    unfold applyCredit
    rw [keys_dictSet_of_mem _ ?_]
    · exact hd
    · rw [hd]
      cases k with
      | catchTaken => decide
      | stumpingMade => decide
      | runOutAssist ppf =>
        show "run_outs" ∈ defaultKeys
        decide
  | potmMark name =>
    simp only [applyEvent]
    by_cases hc : (teamLookup m name).isSome
    · rw [if_pos hc]
      apply teamModify_inv name ?_ h
      intro d hd
      rw [keys_dictSet_of_mem _ ?_]
      · exact hd
      · rw [hd]
        decide
    · rw [if_neg hc]
      exact h
  | formatPass name =>
    simp only [applyEvent]
    apply teamModify_inv name ?_ h
    intro d hd
    rw [keys_dictUpdate_of_subset _ _ ?_]
    · exact hd
    · intro key hk
      rw [hd]
      simp only [formatUpdates, List.map_cons, List.map_nil] at hk
      fin_cases hk <;> decide

theorem run_scrape_events_inv (evs : List ScrapeEvent) :
    entryInvariant (run_scrape_events evs) := by
  unfold run_scrape_events
  have main : ∀ (l : List ScrapeEvent) (m : TeamMap), entryInvariant m →
      entryInvariant (l.foldl applyEvent m) := by
    intro l
    induction l with
    | nil => intro m hm; exact hm
    | cons e rest ih =>
      intro m hm
      exact ih (applyEvent m e) (applyEvent_inv e hm)
  exact main evs [] (by intro e he; exact absurd he (List.not_mem_nil e))

/-- C10: every entry of the scorecard map — however it was first
created — carries exactly the key set of `create_default_player_stats`
(all passes only update keys the default record already has), and the
default record has `did_not_bat = "Yes"`, `potm = "No"`,
`is_sub = False`, and every other field `0`. -/
theorem scorecard_entries_complete (evs : List ScrapeEvent) (name : String)
    (d : StatsDict) :
    (teamLookup (run_scrape_events evs) name = some d →
      d.map Prod.fst = defaultKeys) ∧
    dictLookup default_player_stats_dict "did_not_bat" = some (.str "Yes") ∧
    dictLookup default_player_stats_dict "potm" = some (.str "No") ∧
    dictLookup default_player_stats_dict "is_sub" = some (.boolean false) ∧
    (∀ kv ∈ default_player_stats_dict,
      kv.1 ≠ "did_not_bat" → kv.1 ≠ "potm" → kv.1 ≠ "is_sub" → kv.2 = .num 0) := by
  refine ⟨?_, rfl, rfl, rfl, by decide⟩
  intro hl
  unfold teamLookup at hl
  rcases Option.map_eq_some'.mp hl with ⟨e, hfind, hsnd⟩
  have hmem := List.mem_of_find?_eq_some hfind
  rw [← hsnd]
  exact run_scrape_events_inv evs e hmem

/-- C10 witness: a did-not-bat stub is exactly the default record. -/
theorem scorecard_entries_complete_witness :
    teamLookup (run_scrape_events [ScrapeEvent.dnbRow "A"]) "A" =
      some default_player_stats_dict ∧
    default_player_stats_dict.map Prod.fst = defaultKeys :=
  ⟨rfl, (scorecard_entries_complete [ScrapeEvent.dnbRow "A"] "A"
    default_player_stats_dict).1 rfl⟩
